import Mathlib

/-!
Verification of the PK/PD simulation engine in
`src/client/src/pages/simulator.tsx` (GALGAT/PK_PD_SIM).

Embedding conventions:
* Dosing parameters and the simulation time grid are embedded over `ℚ`
  (every JavaScript double is a rational number), so validation and the
  grid/cycle bookkeeping stay decidable and executable.
* Concentrations, the dynamic MIC and the optimizer work over `ℝ`
  (they use `Math.log`, `Math.exp`, `Math.pow`), modelling exact real
  arithmetic.
* `t % I` for the nonnegative grid times and `I > 0` is `t - I * ⌊t / I⌋`
  (`jsMod`); `Math.floor` is `Int.floor`; `Math.round x` is `round x`
  (both are `⌊x + 1/2⌋`); `x.toFixed(d)` is modelled by the rational value
  the produced string denotes (`toFixedVal d x`).
* A JavaScript division whose divisor is 0 produces `NaN`/`Infinity`; where
  a claim depends on such a value not being an ordinary number, the
  division is modelled as an `Option` (`divChecked`, and the `Option`-valued
  per-cycle `percentTOverMIC`), with `none` standing for the non-finite
  result. Elsewhere division is Lean's total division.
-/

open scoped Classical

/-! ### Parameter records (simulator.tsx, interfaces `DrugParams`,
`InhibitorParams`, `PDParams`, `SimParams`) -/

/-- `interface DrugParams` (simulator.tsx lines 11-16): dosing interval,
infusion time, half-life (hours) and peak concentration (μg/mL). -/
structure DrugParams where
  dosingInterval : ℚ
  infusionTime : ℚ
  halfLife : ℚ
  maxConcentration : ℚ

/-- `interface InhibitorParams` (lines 18-23) has exactly the same fields as
`DrugParams`. -/
abbrev InhibitorParams := DrugParams

/-- `interface PDParams` (lines 25-30). Real-valued: these feed the Hill
function directly. -/
structure PDParams where
  log2MIC0 : ℝ
  imax : ℝ
  ic50 : ℝ
  hillCoeff : ℝ

/-- `interface SimParams` (lines 32-35). `numCycles` is the cycle count
(the UI clamps it to the integers 1..10), `timeStep` the grid step in
hours. -/
structure SimParams where
  numCycles : ℕ
  timeStep : ℚ

/-- The four parameter blocks handed to `runSimulation`. -/
structure SimInput where
  drugParams : DrugParams
  inhibitorParams : InhibitorParams
  pdParams : PDParams
  simParams : SimParams

/-! ### Validator (simulator.tsx lines 248-286) -/

/-- `validateDrugParams` (lines 248-266): the five independent checks, each
contributing its message to the returned list. -/
def validateDrugParams (p : DrugParams) : List String :=
  (if p.dosingInterval ≤ 0 then ["Dosing interval must be positive"] else []) ++
  (if p.infusionTime < 0 then ["Infusion time must be non-negative"] else []) ++
  (if p.infusionTime > p.dosingInterval then
    ["Infusion time cannot exceed dosing interval"] else []) ++
  (if p.halfLife ≤ 0 then ["Half-life must be positive"] else []) ++
  (if p.maxConcentration ≤ 0 then ["Max concentration must be positive"] else [])

/-- `validateInhibitorParams` (lines 268-286): the identical five checks on
the inhibitor regimen. -/
def validateInhibitorParams (p : InhibitorParams) : List String :=
  (if p.dosingInterval ≤ 0 then ["Dosing interval must be positive"] else []) ++
  (if p.infusionTime < 0 then ["Infusion time must be non-negative"] else []) ++
  (if p.infusionTime > p.dosingInterval then
    ["Infusion time cannot exceed dosing interval"] else []) ++
  (if p.halfLife ≤ 0 then ["Half-life must be positive"] else []) ++
  (if p.maxConcentration ≤ 0 then ["Max concentration must be positive"] else [])

/-! ### The time grid (simulator.tsx line 348:
`for (let t = 0; t <= totalTime; t += simParams.timeStep)`) -/

/-- One round of the sampling loop, started at `t`: while `t ≤ total`, emit
`t` and continue at `t + ts`. The loop body runs only under the engine's
validated precondition `0 < ts` (line 298 aborts on `timeStep <= 0`), which
here also makes the recursion terminate. -/
def simLoop (ts total t : ℚ) : List ℚ :=
  if _h : 0 < ts ∧ t ≤ total then
    t :: simLoop ts total (t + ts)
  else
    []
termination_by (⌊(total - t) / ts⌋ + 1).toNat
decreasing_by
  obtain ⟨hts, hle⟩ := _h
  have h0 : (0 : ℚ) ≤ (total - t) / ts := div_nonneg (by linarith) hts.le
  have hfl : (0 : ℤ) ≤ ⌊(total - t) / ts⌋ := Int.floor_nonneg.mpr h0
  have hnext : ⌊(total - (t + ts)) / ts⌋ = ⌊(total - t) / ts⌋ - 1 := by
    have : total - (t + ts) = (total - t) - ts := by ring
    rw [this, sub_div, div_self hts.ne', ← Int.floor_sub_int ((total - t) / ts) 1]
    norm_num
  rw [hnext]
  have : ⌊(total - t) / ts⌋ - 1 + 1 = ⌊(total - t) / ts⌋ := by ring
  rw [this]
  exact (Int.toNat_lt_toNat (by omega)).mpr (by omega)

/-- The full time grid of a run: `t` from `0` to `total` inclusive in steps
of `ts` (lines 348-349, each iteration pushes `t` onto `timePoints`). -/
def simTimePoints (ts total : ℚ) : List ℚ := simLoop ts total 0

/-- Closed form of the sampling loop: in exact arithmetic the loop started
at `t` emits `t + i * ts` for `i = 0, …, ⌊(total - t)/ts⌋`. -/
theorem simLoop_eq (ts total : ℚ) (hts : 0 < ts) (t : ℚ) :
    simLoop ts total t =
      (List.range (⌊(total - t) / ts⌋ + 1).toNat).map (fun i : ℕ => t + (i : ℚ) * ts) := by
  generalize hn : (⌊(total - t) / ts⌋ + 1).toNat = n
  induction n generalizing t with
  | zero =>
    have hneg : ⌊(total - t) / ts⌋ + 1 ≤ 0 := by
      by_contra hpos
      push_neg at hpos
      omega
    have htot : total < t := by
      by_contra hle
      push_neg at hle
      have h0 : (0 : ℚ) ≤ (total - t) / ts := div_nonneg (by linarith) hts.le
      have := Int.floor_nonneg.mpr h0
      omega
    rw [simLoop]
    rw [dif_neg (by push_neg; intro _; linarith)]
    simp
  | succ n ih =>
    have hle : t ≤ total := by
      by_contra hgt
      push_neg at hgt
      have hneg : (total - t) / ts < 0 :=
        div_neg_of_neg_of_pos (by linarith) hts
      have : ⌊(total - t) / ts⌋ < 0 := Int.floor_lt.mpr (by simpa using hneg)
      omega
    have hnext : ⌊(total - (t + ts)) / ts⌋ = ⌊(total - t) / ts⌋ - 1 := by
      have harg : total - (t + ts) = (total - t) - ts := by ring
      rw [harg, sub_div, div_self hts.ne', ← Int.floor_sub_int ((total - t) / ts) 1]
      norm_num
    have hm : (⌊(total - (t + ts)) / ts⌋ + 1).toNat = n := by
      rw [hnext]; omega
    rw [simLoop, dif_pos ⟨hts, hle⟩, ih (t + ts) hm]
    rw [List.range_succ_eq_map]
    simp only [List.map_cons, List.map_map, Nat.cast_zero, zero_mul, add_zero]
    refine congrArg (List.cons t) ?_
    apply List.map_congr_left
    intro i _
    simp only [Function.comp_apply]
    push_cast
    ring

/-- The grid itself in closed form. -/
theorem simTimePoints_eq (ts total : ℚ) (hts : 0 < ts) :
    simTimePoints ts total =
      (List.range (⌊total / ts⌋ + 1).toNat).map (fun i : ℕ => (i : ℚ) * ts) := by
  rw [simTimePoints, simLoop_eq ts total hts 0]
  simp

/-- Membership in the grid: exactly the multiples `i * ts ≤ total`. -/
theorem mem_simTimePoints (ts total : ℚ) (hts : 0 < ts) (h0 : 0 ≤ total) (x : ℚ) :
    x ∈ simTimePoints ts total ↔ ∃ i : ℕ, (i : ℚ) * ts = x ∧ (i : ℚ) * ts ≤ total := by
  rw [simTimePoints_eq ts total hts]
  have hnn : (0 : ℤ) ≤ ⌊total / ts⌋ := Int.floor_nonneg.mpr (div_nonneg h0 hts.le)
  constructor
  · intro hx
    obtain ⟨i, hi, rfl⟩ := List.mem_map.mp hx
    have hirange := List.mem_range.mp hi
    refine ⟨i, rfl, ?_⟩
    have hi' : (i : ℤ) ≤ ⌊total / ts⌋ := by
      have h2 : (i : ℤ) < ((⌊total / ts⌋ + 1).toNat : ℤ) := by exact_mod_cast hirange
      rw [Int.toNat_of_nonneg (by omega)] at h2
      omega
    have hq : (i : ℚ) ≤ total / ts := by exact_mod_cast Int.le_floor.mp hi'
    calc (i : ℚ) * ts ≤ (total / ts) * ts := mul_le_mul_of_nonneg_right hq hts.le
      _ = total := div_mul_cancel₀ total hts.ne'
  · rintro ⟨i, hix, hle⟩
    refine List.mem_map.mpr ⟨i, List.mem_range.mpr ?_, hix⟩
    have hdiv : (i : ℚ) ≤ total / ts := (le_div_iff₀ hts).mpr hle
    have h1 : (i : ℤ) ≤ ⌊total / ts⌋ := Int.le_floor.mpr (by exact_mod_cast hdiv)
    omega

/-- Length of the grid: `⌊total/ts⌋ + 1` samples (one per loop step). -/
theorem simTimePoints_length (ts total : ℚ) (hts : 0 < ts) (h0 : 0 ≤ total) :
    ((simTimePoints ts total).length : ℤ) = ⌊total / ts⌋ + 1 := by
  rw [simTimePoints_eq ts total hts]
  have hnn : (0 : ℤ) ≤ ⌊total / ts⌋ := Int.floor_nonneg.mpr (div_nonneg h0 hts.le)
  simp only [List.length_map, List.length_range]
  omega

/-! ### Concentration model (simulator.tsx lines 215-229) -/

/-- `calculateDecayConstant` (lines 215-217): `Math.log(2) / halfLife`. -/
noncomputable def calculateDecayConstant (halfLife : ℝ) : ℝ :=
  Real.log 2 / halfLife

/-- `calculateMinConcentration` (lines 219-221):
`maxConc * Math.exp(-decayConstant * (dosingInterval - infusionTime))`. -/
noncomputable def calculateMinConcentration
    (maxConc decayConstant dosingInterval infusionTime : ℝ) : ℝ :=
  maxConc * Real.exp (-decayConstant * (dosingInterval - infusionTime))

/-- `concentrationDuringInfusion` (lines 223-225):
`minConc + (maxConc - minConc) * ((t - tCycleStart) / infusionTime)`. -/
noncomputable def concentrationDuringInfusion
    (t tCycleStart infusionTime minConc maxConc : ℝ) : ℝ :=
  minConc + (maxConc - minConc) * ((t - tCycleStart) / infusionTime)

/-- `concentrationDuringDecay` (lines 227-229):
`maxConc * Math.exp(-decayConstant * (t - tInfusionEnd))`. -/
noncomputable def concentrationDuringDecay
    (t tInfusionEnd maxConc decayConstant : ℝ) : ℝ :=
  maxConc * Real.exp (-decayConstant * (t - tInfusionEnd))

/-- `calculateLog2MIC` (lines 231-235):
`log2MIC0 - (imax * c^hillCoeff) / (c^hillCoeff + ic50^hillCoeff)`
(`Math.pow` on reals is `Real.rpow`). -/
noncomputable def calculateLog2MIC
    (inhibitorConc log2MIC0 imax ic50 hillCoeff : ℝ) : ℝ :=
  log2MIC0 -
    (imax * inhibitorConc ^ hillCoeff) /
      (inhibitorConc ^ hillCoeff + ic50 ^ hillCoeff)

/-- `calculateAUC` (lines 237-245): the trapezoidal sum over consecutive
pairs of the two equal-length series; an empty or single-point series
contributes nothing. -/
noncomputable def calculateAUC : List ℝ → List ℝ → ℝ
  | t0 :: t1 :: ts, c0 :: c1 :: cs =>
      (c0 + c1) / 2 * (t1 - t0) + calculateAUC (t1 :: ts) (c1 :: cs)
  | _, _ => 0

/-! ### Per-sample engine computations (runSimulation, lines 348-406).
JavaScript's `t % I` for `t ≥ 0, I > 0` equals `t - I * Math.floor(t / I)`,
and `Math.floor` is `Int.floor`. -/

/-- `t % dosingInterval` of the loop (`t ≥ 0` on the grid). -/
def jsMod (t dosingInterval : ℚ) : ℚ :=
  t - dosingInterval * ⌊t / dosingInterval⌋

/-- `Math.floor(t / dosingInterval)`, the 0-based cycle index at `t`
(lines 350, 368). -/
def cycleIndexAt (dosingInterval : ℚ) (t : ℚ) : ℤ := ⌊t / dosingInterval⌋

/-- The concentration of one regimen at absolute time `t` (drug: lines
352-365, inhibitor: lines 367-381, identical shape): the infusion formula
while `t % I ≤ infusionTime`, the decay formula anchored at this cycle's
infusion end otherwise. -/
noncomputable def regimenConcAt (p : DrugParams) (t : ℚ) : ℝ :=
  let k := calculateDecayConstant (p.halfLife : ℝ)
  let minConc := calculateMinConcentration (p.maxConcentration : ℝ) k
    (p.dosingInterval : ℝ) (p.infusionTime : ℝ)
  let currentCycle : ℤ := cycleIndexAt p.dosingInterval t
  if jsMod t p.dosingInterval ≤ p.infusionTime then
    concentrationDuringInfusion (t : ℝ)
      (((currentCycle : ℚ) * p.dosingInterval : ℚ) : ℝ)
      (p.infusionTime : ℝ) minConc (p.maxConcentration : ℝ)
  else
    concentrationDuringDecay (t : ℝ)
      (((currentCycle : ℚ) * p.dosingInterval + p.infusionTime : ℚ) : ℝ)
      (p.maxConcentration : ℝ) k

/-- The dynamic MIC at `t` (lines 386-393): `Math.pow(2, log2MIC)` of the
Hill-reduced log2 MIC at the inhibitor concentration. -/
noncomputable def micAt (inp : SimInput) (t : ℚ) : ℝ :=
  (2 : ℝ) ^ calculateLog2MIC (regimenConcAt inp.inhibitorParams t)
    inp.pdParams.log2MIC0 inp.pdParams.imax inp.pdParams.ic50 inp.pdParams.hillCoeff

/-- The binary time-above-MIC indicator at `t` (line 396:
`drugConc >= mic ? 1 : 0`). -/
noncomputable def aboveMICb (inp : SimInput) (t : ℚ) : Bool :=
  decide (micAt inp t ≤ regimenConcAt inp.drugParams t)

/-- `totalTime = simParams.numCycles * drugParams.dosingInterval`
(line 309). -/
def totalTime (inp : SimInput) : ℚ :=
  inp.simParams.numCycles * inp.drugParams.dosingInterval

/-- The full run's time grid (`timePoints`, lines 310, 348-349). -/
def timePoints (inp : SimInput) : List ℚ :=
  simTimePoints inp.simParams.timeStep (totalTime inp)

/-- The absolute sample times the loop pushes into the cycle bucket `c`
(lines 399-405): kept only while `currentCycle < numCycles`, under the
index `Math.min(currentCycle, numCycles - 1)`. -/
def bucketTimes (inp : SimInput) (c : ℕ) : List ℚ :=
  (timePoints inp).filter (fun t =>
    decide (cycleIndexAt inp.drugParams.dosingInterval t < (inp.simParams.numCycles : ℤ) ∧
      min (cycleIndexAt inp.drugParams.dosingInterval t)
        ((inp.simParams.numCycles : ℤ) - 1) = (c : ℤ)))

/-- `interface CycleResult` (lines 56-66), with the derived metrics of
lines 411-427. `percentTOverMIC` is an `Option`: `none` models the `NaN`
that `(count / 0) * 100` produces when the bucket received no samples. -/
structure CycleResult where
  cycle : ℕ
  timePoints : List ℚ
  drugConcentrations : List ℝ
  inhibitorConcentrations : List ℝ
  micValues : List ℝ
  drugAUC : ℝ
  inhibitorAUC : ℝ
  exposureRatio : ℝ
  percentTOverMIC : Option ℝ

/-- The committed `CycleResult` of bucket `c` (lines 334-346 set up the
bucket, 399-405 fill it with the cycle-relative time `timeInCycle` and the
per-sample values, 411-427 derive AUCs, ratio and percent-time-above-MIC;
none of these fields is rounded). -/
noncomputable def cycleResultOf (inp : SimInput) (c : ℕ) : CycleResult :=
  let ts := bucketTimes inp c
  let rel := ts.map (fun t => jsMod t inp.drugParams.dosingInterval)
  let dcs := ts.map (fun t => regimenConcAt inp.drugParams t)
  let ics := ts.map (fun t => regimenConcAt inp.inhibitorParams t)
  let mics := ts.map (fun t => micAt inp t)
  let dAUC := calculateAUC (rel.map (fun q => (q : ℝ))) dcs
  let iAUC := calculateAUC (rel.map (fun q => (q : ℝ))) ics
  let aboveCount := ts.countP (fun t => aboveMICb inp t)
  { cycle := c + 1
    timePoints := rel
    drugConcentrations := dcs
    inhibitorConcentrations := ics
    micValues := mics
    drugAUC := dAUC
    inhibitorAUC := iAUC
    exposureRatio := dAUC / iAUC
    percentTOverMIC :=
      if rel.length = 0 then none
      else some (((aboveCount : ℝ) / (rel.length : ℝ)) * 100) }

/-! ### Whole-horizon summary and the committed output (lines 408-463) -/

/-- The whole-horizon drug AUC (line 408):
`calculateAUC(timePoints, drugConcentrations)`. -/
noncomputable def rawDrugAUC (inp : SimInput) : ℝ :=
  calculateAUC ((timePoints inp).map (fun q => (q : ℝ)))
    ((timePoints inp).map (fun t => regimenConcAt inp.drugParams t))

/-- The whole-horizon inhibitor AUC (line 409). -/
noncomputable def rawInhibitorAUC (inp : SimInput) : ℝ :=
  calculateAUC ((timePoints inp).map (fun q => (q : ℝ)))
    ((timePoints inp).map (fun t => regimenConcAt inp.inhibitorParams t))

/-- Whole-horizon percent time above MIC (lines 431-433): `100 ·`
(number of samples with indicator 1) `/` (number of samples). -/
noncomputable def rawPercentTOverMIC (inp : SimInput) : ℝ :=
  (((timePoints inp).countP (fun t => aboveMICb inp t) : ℝ) /
    ((timePoints inp).length : ℝ)) * 100

/-- The summary block (`interface Results`, lines 37-47; the engine commits
it with every field formatted by `toFixed`, lines 442-452 — each field below
is the rational value the committed string denotes). -/
structure Results where
  drugAUC : ℝ
  inhibitorAUC : ℝ
  exposureRatio : ℝ
  inverseExposureRatio : ℝ
  percentTOverMIC : ℝ
  drugMinConc : ℝ
  inhibitorMinConc : ℝ
  kDrug : ℝ
  kInhibitor : ℝ

/-- The numeric value of `x.toFixed(d)` (and of `Math.round(x·10^d)/10^d`):
round half towards `+∞` at the `d`-th decimal. `round` is `⌊x + 1/2⌋`,
exactly JavaScript's rule. -/
noncomputable def toFixedVal (d : ℕ) (x : ℝ) : ℝ :=
  ((round (x * 10 ^ d) : ℤ) : ℝ) / 10 ^ d

/-- The summary exactly as the engine computes it, before formatting
(lines 316-331 and 408-433). -/
noncomputable def rawResults (inp : SimInput) : Results :=
  { drugAUC := rawDrugAUC inp
    inhibitorAUC := rawInhibitorAUC inp
    exposureRatio := rawDrugAUC inp / rawInhibitorAUC inp
    inverseExposureRatio := rawInhibitorAUC inp / rawDrugAUC inp
    percentTOverMIC := rawPercentTOverMIC inp
    drugMinConc := calculateMinConcentration (inp.drugParams.maxConcentration : ℝ)
      (calculateDecayConstant (inp.drugParams.halfLife : ℝ))
      (inp.drugParams.dosingInterval : ℝ) (inp.drugParams.infusionTime : ℝ)
    inhibitorMinConc := calculateMinConcentration (inp.inhibitorParams.maxConcentration : ℝ)
      (calculateDecayConstant (inp.inhibitorParams.halfLife : ℝ))
      (inp.inhibitorParams.dosingInterval : ℝ) (inp.inhibitorParams.infusionTime : ℝ)
    kDrug := calculateDecayConstant (inp.drugParams.halfLife : ℝ)
    kInhibitor := calculateDecayConstant (inp.inhibitorParams.halfLife : ℝ) }

/-- The summary the engine commits (`resultsData`, lines 442-452): every
field is passed through `toFixed` — AUCs and min concentrations with 2
decimals, the two ratios with 3, the percentage with 1, the decay constants
with 4. -/
noncomputable def committedResults (inp : SimInput) : Results :=
  { drugAUC := toFixedVal 2 (rawDrugAUC inp)
    inhibitorAUC := toFixedVal 2 (rawInhibitorAUC inp)
    exposureRatio := toFixedVal 3 (rawDrugAUC inp / rawInhibitorAUC inp)
    inverseExposureRatio := toFixedVal 3 (rawInhibitorAUC inp / rawDrugAUC inp)
    percentTOverMIC := toFixedVal 1 (rawPercentTOverMIC inp)
    drugMinConc := toFixedVal 2 (calculateMinConcentration
      (inp.drugParams.maxConcentration : ℝ)
      (calculateDecayConstant (inp.drugParams.halfLife : ℝ))
      (inp.drugParams.dosingInterval : ℝ) (inp.drugParams.infusionTime : ℝ))
    inhibitorMinConc := toFixedVal 2 (calculateMinConcentration
      (inp.inhibitorParams.maxConcentration : ℝ)
      (calculateDecayConstant (inp.inhibitorParams.halfLife : ℝ))
      (inp.inhibitorParams.dosingInterval : ℝ) (inp.inhibitorParams.infusionTime : ℝ))
    kDrug := toFixedVal 4 (calculateDecayConstant (inp.drugParams.halfLife : ℝ))
    kInhibitor := toFixedVal 4 (calculateDecayConstant (inp.inhibitorParams.halfLife : ℝ)) }

/-- `interface ChartDataPoint` (lines 49-54). -/
structure ChartDataPoint where
  time : ℝ
  drug : ℝ
  inhibitor : ℝ
  mic : ℝ

/-- The committed time series (`chartData`, lines 435-440): per sample the
time through `toFixed(2)` and the three concentrations through
`toFixed(3)` (`parseFloat` recovers exactly the rounded value). -/
noncomputable def committedChartData (inp : SimInput) : List ChartDataPoint :=
  (timePoints inp).map (fun t : ℚ =>
    { time := toFixedVal 2 (t : ℝ)
      drug := toFixedVal 3 (regimenConcAt inp.drugParams t)
      inhibitor := toFixedVal 3 (regimenConcAt inp.inhibitorParams t)
      mic := toFixedVal 3 (micAt inp t) })

/-- Everything one `runSimulation` call commits together (lines 460-462:
`setResults`, `setChartData`, `setCycleResults`). -/
structure SimOutput where
  results : Results
  chartData : List ChartDataPoint
  cycleResults : List CycleResult

/-- The output of one valid run. -/
noncomputable def simOutput (inp : SimInput) : SimOutput :=
  { results := committedResults inp
    chartData := committedChartData inp
    cycleResults := (List.range inp.simParams.numCycles).map (cycleResultOf inp) }

/-- `runSimulation` as a transition on the committed state (lines 288-463):
validation runs first; on any drug/inhibitor violation or
`timeStep <= 0` the function returns early (line 300) and the previously
committed output — `prev` — stays; otherwise the computed output replaces
it. -/
noncomputable def runSimulation (prev : Option SimOutput) (inp : SimInput) :
    Option SimOutput :=
  if validateDrugParams inp.drugParams ≠ [] ∨
      validateInhibitorParams inp.inhibitorParams ≠ [] ∨
      inp.simParams.timeStep ≤ 0 then
    prev
  else
    some (simOutput inp)

/-! ### NaN-tracking variant of the infusion formula (for the division
`(t - tCycleStart) / infusionTime` at `infusionTime = 0`, line 224) -/

/-- Division that records JavaScript's non-finite result on divisor 0:
`a / 0` is `NaN` (for `a = 0`) or `±Infinity`, never a finite number. -/
noncomputable def divChecked (a b : ℝ) : Option ℝ :=
  if b = 0 then none else some (a / b)

/-- `concentrationDuringInfusion` with its one division checked. -/
noncomputable def concentrationDuringInfusionChecked
    (t tCycleStart infusionTime minConc maxConc : ℝ) : Option ℝ :=
  (divChecked (t - tCycleStart) infusionTime).map
    (fun q => minConc + (maxConc - minConc) * q)

/-- `regimenConcAt` with the infusion branch's division checked; the decay
branch divides by nothing and is always finite. -/
noncomputable def regimenConcCheckedAt (p : DrugParams) (t : ℚ) : Option ℝ :=
  let k := calculateDecayConstant (p.halfLife : ℝ)
  let minConc := calculateMinConcentration (p.maxConcentration : ℝ) k
    (p.dosingInterval : ℝ) (p.infusionTime : ℝ)
  let currentCycle : ℤ := cycleIndexAt p.dosingInterval t
  if jsMod t p.dosingInterval ≤ p.infusionTime then
    concentrationDuringInfusionChecked (t : ℝ)
      (((currentCycle : ℚ) * p.dosingInterval : ℚ) : ℝ)
      (p.infusionTime : ℝ) minConc (p.maxConcentration : ℝ)
  else
    some (concentrationDuringDecay (t : ℝ)
      (((currentCycle : ℚ) * p.dosingInterval + p.infusionTime : ℚ) : ℝ)
      (p.maxConcentration : ℝ) k)

/-! ### Optimizer (`calculateOptimization`, simulator.tsx lines 583-684) -/

/-- `interface OptimizationTarget` (lines 68-72). -/
structure OptimizationTarget where
  minEffectiveConc : ℝ
  maxSafeConc : ℝ
  targetTOverMIC : ℝ

/-- The four mutable locals of `calculateOptimization` right after the
ratio-based rules (lines 595-628), before the safety checks. -/
structure OptCore where
  recommendedInterval : ℝ
  recommendedDose : ℝ
  confidence : ℝ
  riskAssessment : String

/-- The ratio-based decision rules (lines 600-628), starting from the
defaults `confidence = 0.7`, `riskAssessment = "Moderate"` and the current
interval/dose (lines 595-598). -/
noncomputable def optRules (currentInterval currentDose currentTOverMIC
    peakConc troughConc : ℝ) (target : OptimizationTarget) : OptCore :=
  let tOverMICRatio := currentTOverMIC / target.targetTOverMIC
  if tOverMICRatio < 0.8 then
    if peakConc < target.maxSafeConc * 0.8 then
      { recommendedInterval := currentInterval
        recommendedDose := min (currentDose * 1.3) (target.maxSafeConc * 0.9)
        confidence := 0.85
        riskAssessment := "Low" }
    else
      { recommendedInterval := max (currentInterval * 0.75) 6
        recommendedDose := currentDose
        confidence := 0.75
        riskAssessment := "Moderate" }
  else if tOverMICRatio > 1.2 then
    if troughConc > target.minEffectiveConc * 1.5 then
      { recommendedInterval := min (currentInterval * 1.25) 48
        recommendedDose := currentDose
        confidence := 0.8
        riskAssessment := "Low" }
    else if peakConc > target.maxSafeConc * 0.9 then
      { recommendedInterval := currentInterval
        recommendedDose := max (currentDose * 0.85) (target.minEffectiveConc * 2)
        confidence := 0.8
        riskAssessment := "Low" }
    else
      { recommendedInterval := currentInterval
        recommendedDose := currentDose
        confidence := 0.7
        riskAssessment := "Moderate" }
  else
    { recommendedInterval := currentInterval
      recommendedDose := currentDose
      confidence := 0.7
      riskAssessment := "Moderate" }

/-- The two safety checks (lines 630-638), run unconditionally after the
rules, subtherapeutic first, toxicity second (the later one wins on both). -/
noncomputable def applySafety (c : OptCore) (peakConc troughConc : ℝ)
    (target : OptimizationTarget) : OptCore :=
  let c1 :=
    if troughConc < target.minEffectiveConc then
      { c with riskAssessment := "High - Risk of subtherapeutic levels"
               confidence := 0.6 }
    else c
  if peakConc > target.maxSafeConc then
    { c1 with riskAssessment := "High - Risk of toxicity"
              confidence := 0.5 }
  else c1

/-- `interface OptimizationRecommendation` (lines 74-82). -/
structure OptimizationRecommendation where
  recommendedInterval : ℝ
  recommendedDose : ℝ
  expectedTOverMIC : ℝ
  expectedPeakConc : ℝ
  expectedTroughConc : ℝ
  riskAssessment : String
  confidence : ℝ

/-- `calculateOptimization` (lines 583-684) as a function of the drug
regimen, the targets and the four numbers it reads from the committed
state: `currentTOverMIC = parseFloat(results.percentTOverMIC)`, the chart's
peak and trough drug concentrations, and the chart's mean MIC `avgMIC`.
After the rules and safety checks it projects expected outcomes (lines
640-673) and returns everything rounded through `Math.round(x·10^d)/10^d`
(lines 675-683). -/
noncomputable def calculateOptimization (dp : DrugParams)
    (target : OptimizationTarget)
    (currentTOverMIC peakConc troughConc avgMIC : ℝ) :
    OptimizationRecommendation :=
  let safe := applySafety
    (optRules (dp.dosingInterval : ℝ) (dp.maxConcentration : ℝ)
      currentTOverMIC peakConc troughConc target)
    peakConc troughConc target
  let kDrug := Real.log 2 / (dp.halfLife : ℝ)
  let expectedPeakConc := safe.recommendedDose
  let expectedTroughConc := expectedPeakConc *
    Real.exp (-kDrug * (safe.recommendedInterval - (dp.infusionTime : ℝ)))
  let timeAboveMicEstimate := (List.range 11).countP (fun i =>
    let timeInInterval := ((i : ℝ) / 10) * safe.recommendedInterval
    let estimatedConc :=
      if timeInInterval ≤ (dp.infusionTime : ℝ) then
        expectedTroughConc + (expectedPeakConc - expectedTroughConc) *
          (timeInInterval / (dp.infusionTime : ℝ))
      else
        expectedPeakConc * Real.exp (-kDrug * (timeInInterval - (dp.infusionTime : ℝ)))
    decide (avgMIC ≤ estimatedConc))
  let expectedTOverMIC := min (((timeAboveMicEstimate : ℝ) / 11) * 100) 100
  { recommendedInterval := toFixedVal 1 safe.recommendedInterval
    recommendedDose := toFixedVal 1 safe.recommendedDose
    expectedTOverMIC := toFixedVal 1 expectedTOverMIC
    expectedPeakConc := toFixedVal 2 expectedPeakConc
    expectedTroughConc := toFixedVal 2 expectedTroughConc
    riskAssessment := safe.riskAssessment
    confidence := toFixedVal 2 safe.confidence }

/-! ### Helper lemmas -/

/-- The validator's empty result characterises exactly the five rules. -/
theorem validateDrugParams_eq_nil (p : DrugParams) :
    validateDrugParams p = [] ↔
      (0 < p.dosingInterval ∧ 0 ≤ p.infusionTime ∧
       p.infusionTime ≤ p.dosingInterval ∧ 0 < p.halfLife ∧
       0 < p.maxConcentration) := by
  simp only [validateDrugParams, List.append_eq_nil, ite_eq_right_iff,
    reduceCtorEq, imp_false, not_le, not_lt, gt_iff_lt]
  tauto

/-- The two validators are the same function (their source bodies are
identical). -/
theorem validateInhibitorParams_eq :
    validateInhibitorParams = validateDrugParams := rfl

/-- Each rule's message is in the drug validator's list exactly when that
rule is violated. -/
theorem validateDrugParams_mem (p : DrugParams) :
    ("Dosing interval must be positive" ∈ validateDrugParams p ↔
      p.dosingInterval ≤ 0) ∧
    ("Infusion time must be non-negative" ∈ validateDrugParams p ↔
      p.infusionTime < 0) ∧
    ("Infusion time cannot exceed dosing interval" ∈ validateDrugParams p ↔
      p.dosingInterval < p.infusionTime) ∧
    ("Half-life must be positive" ∈ validateDrugParams p ↔ p.halfLife ≤ 0) ∧
    ("Max concentration must be positive" ∈ validateDrugParams p ↔
      p.maxConcentration ≤ 0) := by
  unfold validateDrugParams
  split_ifs <;> simp_all

/-- `round` is monotone. -/
theorem round_monotone (x y : ℝ) (h : x ≤ y) : round x ≤ round y := by
  rw [round_eq, round_eq]
  exact Int.floor_le_floor (by linarith)

/-- `toFixedVal` keeps values inside `[0, 100]`. -/
theorem toFixedVal_mem_Icc (d : ℕ) (x : ℝ) (h0 : 0 ≤ x) (h1 : x ≤ 100) :
    0 ≤ toFixedVal d x ∧ toFixedVal d x ≤ 100 := by
  have hpow : (0 : ℝ) < 10 ^ d := by positivity
  have hlo : (0 : ℤ) ≤ round (x * 10 ^ d) := by
    have := round_monotone 0 (x * 10 ^ d) (by positivity)
    simpa using this
  have hhi : round (x * 10 ^ d) ≤ 100 * 10 ^ d := by
    have h2 : x * 10 ^ d ≤ ((100 * 10 ^ d : ℤ) : ℝ) := by
      push_cast
      nlinarith
    calc round (x * 10 ^ d) ≤ round (((100 * 10 ^ d : ℤ) : ℝ)) :=
          round_monotone _ _ h2
      _ = 100 * 10 ^ d := round_intCast _
  constructor
  · exact div_nonneg (by exact_mod_cast hlo) hpow.le
  · rw [toFixedVal, div_le_iff₀ hpow]
    calc ((round (x * 10 ^ d) : ℤ) : ℝ) ≤ ((100 * 10 ^ d : ℤ) : ℝ) := by exact_mod_cast hhi
      _ = 100 * 10 ^ d := by push_cast; ring

/-- The end-to-end scenario input of the spec (§8): drug {24,1,6,100},
inhibitor {24,1,8,50}, pd {2,3,25,1}, sim {3 cycles, step 0.1}. -/
def inpStd : SimInput :=
  { drugParams := ⟨24, 1, 6, 100⟩
    inhibitorParams := ⟨24, 1, 8, 50⟩
    pdParams := ⟨2, 3, 25, 1⟩
    simParams := ⟨3, 1/10⟩ }

/-- C3: on any violated regimen rule or `timeStep ≤ 0` the run commits
nothing — the previously committed output stays — and each validator's
list contains the human-readable message of every violated rule of its
regimen, each rule checked independently of the others; the empty list
characterises a valid regimen. -/
theorem C3_validation_gate (inp : SimInput) (prev : Option SimOutput)
    (hbad : validateDrugParams inp.drugParams ≠ [] ∨
      validateInhibitorParams inp.inhibitorParams ≠ [] ∨
      inp.simParams.timeStep ≤ 0) :
    runSimulation prev inp = prev ∧
    (∀ p : DrugParams,
      ("Dosing interval must be positive" ∈ validateDrugParams p ↔
        p.dosingInterval ≤ 0) ∧
      ("Infusion time must be non-negative" ∈ validateDrugParams p ↔
        p.infusionTime < 0) ∧
      ("Infusion time cannot exceed dosing interval" ∈ validateDrugParams p ↔
        p.dosingInterval < p.infusionTime) ∧
      ("Half-life must be positive" ∈ validateDrugParams p ↔ p.halfLife ≤ 0) ∧
      ("Max concentration must be positive" ∈ validateDrugParams p ↔
        p.maxConcentration ≤ 0) ∧
      (validateDrugParams p = [] ↔
        (0 < p.dosingInterval ∧ 0 ≤ p.infusionTime ∧
         p.infusionTime ≤ p.dosingInterval ∧ 0 < p.halfLife ∧
         0 < p.maxConcentration))) ∧
    (∀ p : InhibitorParams,
      ("Dosing interval must be positive" ∈ validateInhibitorParams p ↔
        p.dosingInterval ≤ 0) ∧
      ("Infusion time must be non-negative" ∈ validateInhibitorParams p ↔
        p.infusionTime < 0) ∧
      ("Infusion time cannot exceed dosing interval" ∈ validateInhibitorParams p ↔
        p.dosingInterval < p.infusionTime) ∧
      ("Half-life must be positive" ∈ validateInhibitorParams p ↔ p.halfLife ≤ 0) ∧
      ("Max concentration must be positive" ∈ validateInhibitorParams p ↔
        p.maxConcentration ≤ 0) ∧
      (validateInhibitorParams p = [] ↔
        (0 < p.dosingInterval ∧ 0 ≤ p.infusionTime ∧
         p.infusionTime ≤ p.dosingInterval ∧ 0 < p.halfLife ∧
         0 < p.maxConcentration))) := by
  refine ⟨?_, ?_, ?_⟩
  · rw [runSimulation, if_pos hbad]
  · intro p
    obtain ⟨h1, h2, h3, h4, h5⟩ := validateDrugParams_mem p
    exact ⟨h1, h2, h3, h4, h5, validateDrugParams_eq_nil p⟩
  · intro p
    rw [validateInhibitorParams_eq]
    obtain ⟨h1, h2, h3, h4, h5⟩ := validateDrugParams_mem p
    exact ⟨h1, h2, h3, h4, h5, validateDrugParams_eq_nil p⟩

/-- An input with `dosingInterval = 0`, violating the first rule. -/
def inpBad : SimInput :=
  { drugParams := ⟨0, 1, 6, 100⟩
    inhibitorParams := ⟨24, 1, 8, 50⟩
    pdParams := ⟨2, 3, 25, 1⟩
    simParams := ⟨3, 1/10⟩ }

/-- Witness for C3 at the concrete invalid input `inpBad`. -/
theorem C3_validation_gate_witness : runSimulation none inpBad = none :=
  (C3_validation_gate inpBad none
    (Or.inl (by simp [ne_eq, validateDrugParams_eq_nil, inpBad]))).1

/-- C5: the run walks `t` from `0` to `totalTime` inclusive in steps of
`timeStep`, one committed time-series sample per step, so a valid grid has
`⌊totalTime/timeStep⌋ + 1` samples; in the standard scenario
(interval 24 h, 3 cycles, step 0.1 h) that is `⌊72/0.1⌋ + 1 = 721`. -/
theorem C5_time_grid :
    (∀ ts total : ℚ, 0 < ts → 0 ≤ total →
      ((simTimePoints ts total).length : ℤ) = ⌊total / ts⌋ + 1) ∧
    (∀ inp : SimInput, (committedChartData inp).length = (timePoints inp).length) ∧
    (timePoints inpStd).length = 721 := by
  refine ⟨simTimePoints_length, fun inp => List.length_map _ _, ?_⟩
  have htot : totalTime inpStd = 72 := by norm_num [totalTime, inpStd]
  have h1 : ((timePoints inpStd).length : ℤ) = ⌊(72 : ℚ) / (1/10)⌋ + 1 := by
    rw [timePoints, htot]
    exact simTimePoints_length (1/10) 72 (by norm_num) (by norm_num)
  have h2 : ⌊(72 : ℚ) / (1/10)⌋ = 720 := by norm_num [Int.floor_eq_iff]
  rw [h2] at h1
  exact_mod_cast h1

/-- Witness for C5: the general length formula applied at step 1 over
`[0, 2]`, plus the closed 721-sample count of the standard scenario. -/
theorem C5_time_grid_witness :
    ((simTimePoints 1 2).length : ℤ) = ⌊(2 : ℚ) / 1⌋ + 1 ∧
    (timePoints inpStd).length = 721 :=
  ⟨C5_time_grid.1 1 2 (by norm_num) (by norm_num), C5_time_grid.2.2⟩

/-- Trapezoids over a constant series telescope to
`c * (last - head)`. -/
theorem calculateAUC_const (c : ℝ) (ts : List ℝ) (h : ts ≠ []) :
    calculateAUC ts (ts.map (fun _ => c)) = c * (ts.getLast h - ts.head h) := by
  induction ts with
  | nil => exact absurd rfl h
  | cons t1 rest ih =>
    cases rest with
    | nil => simp [calculateAUC]
    | cons t2 rest2 =>
      have ih2 := ih (by simp)
      simp only [List.map_cons] at ih2 ⊢
      have hstep : calculateAUC (t1 :: t2 :: rest2)
          (c :: c :: rest2.map (fun _ => c)) =
          (c + c) / 2 * (t2 - t1) +
            calculateAUC (t2 :: rest2) (c :: rest2.map (fun _ => c)) := rfl
      rw [hstep, ih2, List.getLast_cons_cons, List.head_cons, List.head_cons]
      ring

/-- C9: the AUC integrator is the trapezoidal sum over consecutive pairs:
it returns 0 on the empty and on every single-sample series, and on an
ascending constant series with value `c` it returns exactly
`c * (t_last - t_first)`. -/
theorem C9_auc_integrator :
    calculateAUC ([] : List ℝ) ([] : List ℝ) = 0 ∧
    (∀ t c : ℝ, calculateAUC [t] [c] = 0) ∧
    (∀ (ts : List ℝ) (c : ℝ) (h : ts ≠ []), ts.Sorted (· ≤ ·) →
      calculateAUC ts (ts.map (fun _ => c)) = c * (ts.getLast h - ts.head h)) :=
  ⟨rfl, fun _ _ => rfl, fun ts c h _ => calculateAUC_const c ts h⟩

/-- Witness for C9 at the ascending two-point series `[1, 3]` with constant
value 5. -/
theorem C9_auc_integrator_witness :
    calculateAUC [(1 : ℝ), 3] ([(1 : ℝ), 3].map (fun _ => (5 : ℝ))) =
      5 * ([(1 : ℝ), 3].getLast (by simp) - [(1 : ℝ), 3].head (by simp)) :=
  C9_auc_integrator.2.2 [(1 : ℝ), 3] 5 (by simp)
    (by norm_num [List.sorted_cons])

/-- C8: with `hillCoeff > 0` and the data model's `ic50 > 0`, the dynamic
MIC `2 ^ calculateLog2MIC c …` equals `2 ^ log2MIC0` exactly at inhibitor
concentration 0, and with `imax ≥ 0` it is non-increasing in the inhibitor
concentration over `c ≥ 0`. -/
theorem C8_dynamic_mic (log2MIC0 imax ic50 hillCoeff : ℝ)
    (himax : 0 ≤ imax) (hic : 0 < ic50) (hhill : 0 < hillCoeff) :
    (2 : ℝ) ^ calculateLog2MIC 0 log2MIC0 imax ic50 hillCoeff =
      2 ^ log2MIC0 ∧
    ∀ c1 c2 : ℝ, 0 ≤ c1 → c1 ≤ c2 →
      (2 : ℝ) ^ calculateLog2MIC c2 log2MIC0 imax ic50 hillCoeff ≤
        2 ^ calculateLog2MIC c1 log2MIC0 imax ic50 hillCoeff := by
  constructor
  · have hin : calculateLog2MIC 0 log2MIC0 imax ic50 hillCoeff = log2MIC0 := by
      unfold calculateLog2MIC
      rw [Real.zero_rpow hhill.ne']
      simp
    rw [hin]
  · intro c1 c2 hc1 hc12
    rw [Real.rpow_le_rpow_left_iff one_lt_two]
    unfold calculateLog2MIC
    apply sub_le_sub_left
    have hxnn : 0 ≤ c1 ^ hillCoeff := Real.rpow_nonneg hc1 _
    have hxy : c1 ^ hillCoeff ≤ c2 ^ hillCoeff :=
      Real.rpow_le_rpow hc1 hc12 hhill.le
    have hapos : 0 < ic50 ^ hillCoeff := Real.rpow_pos_of_pos hic _
    rw [div_le_div_iff₀ (by linarith) (by linarith)]
    nlinarith [mul_le_mul_of_nonneg_left hxy (mul_nonneg himax hapos.le)]

/-- Witness for C8 at the spec's parameters {2, 3, 25, 1}, comparing the
inhibitor concentrations 0 and 1. -/
theorem C8_dynamic_mic_witness :
    (2 : ℝ) ^ calculateLog2MIC 0 2 3 25 1 = 2 ^ (2 : ℝ) ∧
    (2 : ℝ) ^ calculateLog2MIC 1 2 3 25 1 ≤ 2 ^ calculateLog2MIC 0 2 3 25 1 :=
  ⟨(C8_dynamic_mic 2 3 25 1 (by norm_num) (by norm_num) (by norm_num)).1,
   (C8_dynamic_mic 2 3 25 1 (by norm_num) (by norm_num) (by norm_num)).2
     0 1 le_rfl zero_le_one⟩

/-- C6: when the treatment ratio is under 0.8 and the chart peak is safely
under `0.8 · maxSafeConc`, the ratio rules recommend
`min(currentDose · 1.3, 0.9 · maxSafeConc)` at an unchanged interval with
confidence 0.85 and risk "Low" (this is the state before the safety
overrides of lines 630-638 run). -/
theorem C6_undertreating_dose (currentInterval currentDose currentTOverMIC
    peakConc troughConc : ℝ) (target : OptimizationTarget)
    (hratio : currentTOverMIC / target.targetTOverMIC < 0.8)
    (hpeak : peakConc < target.maxSafeConc * 0.8) :
    optRules currentInterval currentDose currentTOverMIC peakConc troughConc
      target =
      { recommendedInterval := currentInterval
        recommendedDose := min (currentDose * 1.3) (target.maxSafeConc * 0.9)
        confidence := 0.85
        riskAssessment := "Low" } := by
  simp only [optRules]
  rw [if_pos hratio, if_pos hpeak]

/-- Witness for C6: current T>MIC 10 against target 80 (ratio 0.125),
peak 10 against a 50 μg/mL safety cap. -/
theorem C6_undertreating_dose_witness :
    optRules 24 10 10 10 1 ⟨2, 50, 80⟩ =
      { recommendedInterval := 24
        recommendedDose := min (10 * 1.3) ((50 : ℝ) * 0.9)
        confidence := 0.85
        riskAssessment := "Low" } :=
  C6_undertreating_dose 24 10 10 10 1 ⟨2, 50, 80⟩ (by norm_num) (by norm_num)

/-- After the safety checks, a peak above `maxSafeConc` forces the
toxicity risk and confidence 0.5, whatever the incoming core said. -/
theorem applySafety_toxicity (c : OptCore) (peakConc troughConc : ℝ)
    (target : OptimizationTarget) (hpeak : peakConc > target.maxSafeConc) :
    (applySafety c peakConc troughConc target).riskAssessment =
      "High - Risk of toxicity" ∧
    (applySafety c peakConc troughConc target).confidence = 0.5 := by
  simp only [applySafety]
  rw [if_pos hpeak]
  exact ⟨rfl, rfl⟩

/-- `Math.round(0.5 · 100)/100 = 0.5`. -/
theorem toFixedVal_two_half : toFixedVal 2 (0.5 : ℝ) = 0.5 := by
  rw [toFixedVal, show (0.5 : ℝ) * 10 ^ 2 = ((50 : ℤ) : ℝ) by norm_num,
    round_intCast]
  norm_num

/-- C7: the two safety overrides run unconditionally after the ratio
rules, subtherapeutic check first, toxicity check second; so whenever the
chart trough is below `minEffectiveConc` and the chart peak above
`maxSafeConc`, the returned recommendation carries risk
"High - Risk of toxicity" and confidence 0.5, whichever ratio rule
fired. -/
theorem C7_toxicity_wins (dp : DrugParams) (target : OptimizationTarget)
    (currentTOverMIC peakConc troughConc avgMIC : ℝ)
    (_htrough : troughConc < target.minEffectiveConc)
    (hpeak : peakConc > target.maxSafeConc) :
    (calculateOptimization dp target currentTOverMIC peakConc troughConc
      avgMIC).riskAssessment = "High - Risk of toxicity" ∧
    (calculateOptimization dp target currentTOverMIC peakConc troughConc
      avgMIC).confidence = 0.5 := by
  have h := applySafety_toxicity
    (optRules (dp.dosingInterval : ℝ) (dp.maxConcentration : ℝ)
      currentTOverMIC peakConc troughConc target)
    peakConc troughConc target hpeak
  constructor
  · exact h.1
  · show toFixedVal 2 (applySafety
      (optRules (dp.dosingInterval : ℝ) (dp.maxConcentration : ℝ)
        currentTOverMIC peakConc troughConc target)
      peakConc troughConc target).confidence = 0.5
    rw [h.2]
    exact toFixedVal_two_half

/-- Witness for C7: trough 1 below `minEffectiveConc = 2`, peak 60 above
`maxSafeConc = 50`. -/
theorem C7_toxicity_wins_witness :
    (calculateOptimization ⟨24, 1, 6, 100⟩ ⟨2, 50, 80⟩ 90 60 1
      4).riskAssessment = "High - Risk of toxicity" ∧
    (calculateOptimization ⟨24, 1, 6, 100⟩ ⟨2, 50, 80⟩ 90 60 1
      4).confidence = 0.5 :=
  C7_toxicity_wins ⟨24, 1, 6, 100⟩ ⟨2, 50, 80⟩ 90 60 1 4
    (by norm_num) (by norm_num)

/-- C10: a regimen whose `infusionTime` is 0 (all other rules satisfied)
passes validation with no message, yet at every cycle-start sample
`t = c · dosingInterval` the loop's branch test `t % I ≤ infusionTime`
selects the infusion formula, whose division `(t - cycleStart)/0` is
unguarded: the checked evaluation records no finite value. The grid always
contains the cycle-start sample `t = 0`. -/
theorem C10_zero_infusion (p : DrugParams) (hinf : p.infusionTime = 0)
    (hI : 0 < p.dosingInterval) (hhl : 0 < p.halfLife)
    (hmax : 0 < p.maxConcentration) :
    validateDrugParams p = [] ∧
    (∀ c : ℕ,
      jsMod ((c : ℚ) * p.dosingInterval) p.dosingInterval ≤ p.infusionTime ∧
      regimenConcCheckedAt p ((c : ℚ) * p.dosingInterval) = none) ∧
    (∀ ts total : ℚ, 0 < ts → 0 ≤ total →
      (0 : ℚ) ∈ simTimePoints ts total) := by
  refine ⟨?_, ?_, ?_⟩
  · rw [validateDrugParams_eq_nil]
    exact ⟨hI, by rw [hinf], by rw [hinf]; exact hI.le, hhl, hmax⟩
  · intro c
    have hmod : jsMod ((c : ℚ) * p.dosingInterval) p.dosingInterval = 0 := by
      unfold jsMod
      rw [mul_div_cancel_right₀ _ hI.ne', Int.floor_natCast]
      push_cast
      ring
    refine ⟨by rw [hmod, hinf], ?_⟩
    simp only [regimenConcCheckedAt]
    rw [if_pos (by rw [hmod, hinf])]
    simp [concentrationDuringInfusionChecked, divChecked, hinf]
  · intro ts total hts h0
    rw [mem_simTimePoints ts total hts h0]
    exact ⟨0, by norm_num, by simpa using h0⟩

/-- Witness for C10 at the regimen {24 h interval, 0 h infusion, 6 h
half-life, 100 μg/mL}: validation passes and the checked concentration at
the start of cycle 1 is non-finite. -/
theorem C10_zero_infusion_witness :
    validateDrugParams ⟨24, 0, 6, 100⟩ = [] ∧
    regimenConcCheckedAt ⟨24, 0, 6, 100⟩
      ((1 : ℕ) * (24 : ℚ)) = none :=
  ⟨(C10_zero_infusion ⟨24, 0, 6, 100⟩ rfl (by norm_num) (by norm_num)
      (by norm_num)).1,
   ((C10_zero_infusion ⟨24, 0, 6, 100⟩ rfl (by norm_num) (by norm_num)
      (by norm_num)).2.1 1).2⟩

/-- C4: in a valid run, exclusion from the per-cycle buckets happens at the
final boundary `t = totalTime` and nowhere else: a grid sample belongs to
no bucket exactly when it is `totalTime` (whose drug cycle index is exactly
`numCycles`), and whenever the grid reaches `totalTime` (the step divides
the horizon) that boundary sample is still in the committed full series. -/
theorem C4_boundary_sample (inp : SimInput)
    (hd : validateDrugParams inp.drugParams = [])
    (hts : 0 < inp.simParams.timeStep)
    (hn : 1 ≤ inp.simParams.numCycles) :
    (∀ t ∈ timePoints inp,
      ((∀ c : ℕ, t ∉ bucketTimes inp c) ↔ t = totalTime inp)) ∧
    cycleIndexAt inp.drugParams.dosingInterval (totalTime inp) =
      inp.simParams.numCycles ∧
    ((∃ i : ℕ, (i : ℚ) * inp.simParams.timeStep = totalTime inp) →
      totalTime inp ∈ timePoints inp) := by
  have hI : 0 < inp.drugParams.dosingInterval :=
    ((validateDrugParams_eq_nil _).mp hd).1
  have h0 : 0 ≤ totalTime inp := by
    have : (0 : ℚ) ≤ (inp.simParams.numCycles : ℚ) := by positivity
    exact mul_nonneg this hI.le
  have hidx : cycleIndexAt inp.drugParams.dosingInterval (totalTime inp) =
      inp.simParams.numCycles := by
    unfold cycleIndexAt totalTime
    rw [mul_div_cancel_right₀ _ hI.ne', Int.floor_natCast]
  refine ⟨?_, hidx, ?_⟩
  · intro t ht
    obtain ⟨i, rfl, hle⟩ :=
      (mem_simTimePoints _ _ hts h0 t).mp ht
    have htnn : (0 : ℚ) ≤ (i : ℚ) * inp.simParams.timeStep := by positivity
    constructor
    · intro hnone
      by_contra hne
      have hlt : (i : ℚ) * inp.simParams.timeStep < totalTime inp :=
        lt_of_le_of_ne hle hne
      have hfl0 : (0 : ℤ) ≤ ⌊(i : ℚ) * inp.simParams.timeStep /
          inp.drugParams.dosingInterval⌋ :=
        Int.floor_nonneg.mpr (div_nonneg htnn hI.le)
      have hfln : ⌊(i : ℚ) * inp.simParams.timeStep /
          inp.drugParams.dosingInterval⌋ < (inp.simParams.numCycles : ℤ) := by
        rw [Int.floor_lt]
        rw [div_lt_iff₀ hI]
        calc (i : ℚ) * inp.simParams.timeStep < totalTime inp := hlt
          _ = ((inp.simParams.numCycles : ℤ) : ℚ) *
              inp.drugParams.dosingInterval := by
            rw [totalTime]; push_cast; ring
      set j : ℤ := ⌊(i : ℚ) * inp.simParams.timeStep /
        inp.drugParams.dosingInterval⌋ with hj
      refine hnone j.toNat ?_
      rw [bucketTimes]
      refine List.mem_filter.mpr ⟨ht, ?_⟩
      rw [decide_eq_true_eq]
      refine ⟨by rw [cycleIndexAt, ← hj]; exact hfln, ?_⟩
      rw [cycleIndexAt, ← hj, Int.toNat_of_nonneg hfl0]
      omega
    · intro heq c
      rw [bucketTimes]
      intro hmem
      have hcond := (List.mem_filter.mp hmem).2
      rw [decide_eq_true_eq] at hcond
      rw [heq, hidx] at hcond
      exact absurd hcond.1 (lt_irrefl _)
  · rintro ⟨i, hi⟩
    rw [timePoints, mem_simTimePoints _ _ hts h0]
    exact ⟨i, hi, le_of_eq hi⟩

/-- Witness for C4 at the standard scenario: the program's drug cycle index
of the boundary time 72 h is exactly `numCycles = 3`. -/
theorem C4_boundary_sample_witness :
    cycleIndexAt inpStd.drugParams.dosingInterval (totalTime inpStd) =
      inpStd.simParams.numCycles :=
  (C4_boundary_sample inpStd
    (by rw [validateDrugParams_eq_nil]; norm_num [inpStd])
    (by norm_num [inpStd]) (by norm_num [inpStd])).2.1

/-- When the step does not exceed the drug dosing interval, every cycle
bucket `c < numCycles` receives at least one sample (the first grid point
at or after the cycle start). -/
theorem bucketTimes_ne_nil (inp : SimInput) (c : ℕ)
    (hc : c < inp.simParams.numCycles)
    (hI : 0 < inp.drugParams.dosingInterval)
    (hts : 0 < inp.simParams.timeStep)
    (hstep : inp.simParams.timeStep ≤ inp.drugParams.dosingInterval) :
    bucketTimes inp c ≠ [] := by
  have h0 : 0 ≤ totalTime inp := mul_nonneg (by positivity) hI.le
  have hceil0 : (0 : ℤ) ≤ ⌈(c : ℚ) * inp.drugParams.dosingInterval /
      inp.simParams.timeStep⌉ :=
    Int.ceil_nonneg (div_nonneg (by positivity) hts.le)
  set i : ℕ := (⌈(c : ℚ) * inp.drugParams.dosingInterval /
    inp.simParams.timeStep⌉).toNat with hi
  have hiq : (i : ℚ) = ((⌈(c : ℚ) * inp.drugParams.dosingInterval /
      inp.simParams.timeStep⌉ : ℤ) : ℚ) := by
    rw [hi]
    exact_mod_cast congrArg (fun z : ℤ => (z : ℚ))
      (Int.toNat_of_nonneg hceil0)
  have h1 : (c : ℚ) * inp.drugParams.dosingInterval ≤
      (i : ℚ) * inp.simParams.timeStep := by
    rw [hiq]
    calc (c : ℚ) * inp.drugParams.dosingInterval
        = ((c : ℚ) * inp.drugParams.dosingInterval /
            inp.simParams.timeStep) * inp.simParams.timeStep :=
          (div_mul_cancel₀ _ hts.ne').symm
      _ ≤ _ := mul_le_mul_of_nonneg_right
          (Int.le_ceil _) hts.le
  have h2 : (i : ℚ) * inp.simParams.timeStep <
      (c : ℚ) * inp.drugParams.dosingInterval + inp.simParams.timeStep := by
    rw [hiq]
    calc ((⌈(c : ℚ) * inp.drugParams.dosingInterval /
            inp.simParams.timeStep⌉ : ℤ) : ℚ) * inp.simParams.timeStep
        < ((c : ℚ) * inp.drugParams.dosingInterval /
            inp.simParams.timeStep + 1) * inp.simParams.timeStep :=
          mul_lt_mul_of_pos_right (Int.ceil_lt_add_one _) hts
      _ = (c : ℚ) * inp.drugParams.dosingInterval + inp.simParams.timeStep := by
          rw [add_mul, div_mul_cancel₀ _ hts.ne', one_mul]
  have h3 : (i : ℚ) * inp.simParams.timeStep <
      ((c : ℚ) + 1) * inp.drugParams.dosingInterval := by
    calc (i : ℚ) * inp.simParams.timeStep
        < (c : ℚ) * inp.drugParams.dosingInterval + inp.simParams.timeStep := h2
      _ ≤ (c : ℚ) * inp.drugParams.dosingInterval +
          inp.drugParams.dosingInterval := by linarith
      _ = ((c : ℚ) + 1) * inp.drugParams.dosingInterval := by ring
  have h4 : ((c : ℚ) + 1) * inp.drugParams.dosingInterval ≤ totalTime inp := by
    have hcn : (c : ℚ) + 1 ≤ (inp.simParams.numCycles : ℚ) := by
      exact_mod_cast hc
    rw [totalTime]
    exact mul_le_mul_of_nonneg_right hcn hI.le
  have hmem : (i : ℚ) * inp.simParams.timeStep ∈ timePoints inp := by
    rw [timePoints, mem_simTimePoints _ _ hts h0]
    exact ⟨i, rfl, le_of_lt (lt_of_lt_of_le h3 h4)⟩
  have hfloor : ⌊(i : ℚ) * inp.simParams.timeStep /
      inp.drugParams.dosingInterval⌋ = (c : ℤ) := by
    rw [Int.floor_eq_iff]
    constructor
    · push_cast
      rw [le_div_iff₀ hI]
      exact h1
    · push_cast
      rw [div_lt_iff₀ hI]
      exact_mod_cast h3
  apply List.ne_nil_of_mem (a := (i : ℚ) * inp.simParams.timeStep)
  rw [bucketTimes]
  refine List.mem_filter.mpr ⟨hmem, ?_⟩
  rw [decide_eq_true_eq]
  unfold cycleIndexAt
  rw [hfloor]
  refine ⟨by exact_mod_cast hc, ?_⟩
  have hcn : (c : ℤ) ≤ (inp.simParams.numCycles : ℤ) - 1 := by
    have : (c : ℤ) < (inp.simParams.numCycles : ℤ) := by exact_mod_cast hc
    omega
  exact min_eq_left hcn

/-- C2 (amended): for inputs passing validation with `timeStep > 0`,
`1 ≤ numCycles ≤ 10`, and additionally `timeStep ≤ drugDosingInterval`
(so that no cycle bucket is empty), the percent time above MIC lies in
`[0, 100]`: for the raw whole-horizon aggregate, for the committed
(`toFixed(1)`) aggregate, and — as a finite value — for each of the
`numCycles` per-cycle results. -/
theorem C2_percent_bounds (inp : SimInput)
    (hd : validateDrugParams inp.drugParams = [])
    (_hiv : validateInhibitorParams inp.inhibitorParams = [])
    (hts : 0 < inp.simParams.timeStep)
    (_hn1 : 1 ≤ inp.simParams.numCycles)
    (_hn10 : inp.simParams.numCycles ≤ 10)
    (hstep : inp.simParams.timeStep ≤ inp.drugParams.dosingInterval) :
    (0 ≤ rawPercentTOverMIC inp ∧ rawPercentTOverMIC inp ≤ 100) ∧
    (0 ≤ (committedResults inp).percentTOverMIC ∧
      (committedResults inp).percentTOverMIC ≤ 100) ∧
    (∀ c < inp.simParams.numCycles, ∃ q,
      (cycleResultOf inp c).percentTOverMIC = some q ∧ 0 ≤ q ∧ q ≤ 100) := by
  have hI : 0 < inp.drugParams.dosingInterval :=
    ((validateDrugParams_eq_nil _).mp hd).1
  have h0 : 0 ≤ totalTime inp := mul_nonneg (by positivity) hI.le
  have hmem0 : (0 : ℚ) ∈ timePoints inp := by
    rw [timePoints, mem_simTimePoints _ _ hts h0]
    exact ⟨0, by norm_num, by simpa using h0⟩
  have hlen : 0 < (timePoints inp).length :=
    List.length_pos.mpr (List.ne_nil_of_mem hmem0)
  have hraw : 0 ≤ rawPercentTOverMIC inp ∧ rawPercentTOverMIC inp ≤ 100 := by
    have hcount := List.countP_le_length
      (p := fun t => aboveMICb inp t) (l := timePoints inp)
    have hlenR : (0 : ℝ) < ((timePoints inp).length : ℝ) := by
      exact_mod_cast hlen
    constructor
    · rw [rawPercentTOverMIC]
      positivity
    · rw [rawPercentTOverMIC]
      have hdiv : ((timePoints inp).countP (fun t => aboveMICb inp t) : ℝ) /
          ((timePoints inp).length : ℝ) ≤ 1 :=
        (div_le_one hlenR).mpr (by exact_mod_cast hcount)
      nlinarith
  refine ⟨hraw, ?_, ?_⟩
  · exact toFixedVal_mem_Icc 1 _ hraw.1 hraw.2
  · intro c hc
    have hne := bucketTimes_ne_nil inp c hc hI hts hstep
    have hbl : (bucketTimes inp c).length ≠ 0 :=
      fun h => hne (List.eq_nil_of_length_eq_zero h)
    have hblR : (0 : ℝ) < ((bucketTimes inp c).length : ℝ) := by
      have : 0 < (bucketTimes inp c).length := Nat.pos_of_ne_zero hbl
      exact_mod_cast this
    have hcount := List.countP_le_length
      (p := fun t => aboveMICb inp t) (l := bucketTimes inp c)
    refine ⟨(((bucketTimes inp c).countP (fun t => aboveMICb inp t) : ℝ) /
        ((bucketTimes inp c).length : ℝ)) * 100, ?_, ?_, ?_⟩
    · simp only [cycleResultOf, List.length_map]
      rw [if_neg hbl]
    · positivity
    · have hdiv : ((bucketTimes inp c).countP (fun t => aboveMICb inp t) : ℝ) /
          ((bucketTimes inp c).length : ℝ) ≤ 1 :=
        (div_le_one hblR).mpr (by exact_mod_cast hcount)
      nlinarith

/-- Witness for the amended C2 at the standard scenario input. -/
theorem C2_percent_bounds_witness :
    0 ≤ rawPercentTOverMIC inpStd ∧ rawPercentTOverMIC inpStd ≤ 100 :=
  (C2_percent_bounds inpStd
    (by rw [validateDrugParams_eq_nil]; norm_num [inpStd])
    (by rw [validateInhibitorParams_eq, validateDrugParams_eq_nil]
        norm_num [inpStd])
    (by norm_num [inpStd]) (by norm_num [inpStd]) (by norm_num [inpStd])
    (by norm_num [inpStd])).1

/-- A validated input whose step (3 h) exceeds the drug dosing interval
(1 h): with 2 cycles over a 2 h horizon the grid is the single sample
`t = 0` and cycle 2 receives no samples. -/
def inpC2 : SimInput :=
  { drugParams := ⟨1, 1, 6, 100⟩
    inhibitorParams := ⟨24, 1, 8, 50⟩
    pdParams := ⟨2, 3, 25, 1⟩
    simParams := ⟨2, 3⟩ }

/-- Counterexample to C2 as stated: `inpC2` passes every validation rule
of both regimens with `timeStep > 0` and `1 ≤ numCycles ≤ 10`, yet the
second cycle's `percentTOverMIC` is `(0/0)·100 = NaN` — no finite value in
`[0, 100]` (the `Option`-valued embedding records `none`). -/
theorem C2_counterexample :
    validateDrugParams inpC2.drugParams = [] ∧
    validateInhibitorParams inpC2.inhibitorParams = [] ∧
    0 < inpC2.simParams.timeStep ∧
    1 ≤ inpC2.simParams.numCycles ∧ inpC2.simParams.numCycles ≤ 10 ∧
    (1 : ℕ) < inpC2.simParams.numCycles ∧
    (cycleResultOf inpC2 1).percentTOverMIC = none := by
  refine ⟨?_, ?_, by norm_num [inpC2], by norm_num [inpC2],
    by norm_num [inpC2], by norm_num [inpC2], ?_⟩
  · rw [validateDrugParams_eq_nil]
    norm_num [inpC2]
  · rw [validateInhibitorParams_eq, validateDrugParams_eq_nil]
    norm_num [inpC2]
  · have htot : totalTime inpC2 = 2 := by norm_num [totalTime, inpC2]
    have hfl : ⌊(2 : ℚ) / 3⌋ = 0 := by norm_num [Int.floor_eq_iff]
    have h1 : timePoints inpC2 = [0] := by
      rw [timePoints, htot, simTimePoints_eq _ _ (by norm_num [inpC2])]
      norm_num [inpC2, hfl, List.range_succ]
    have h2 : bucketTimes inpC2 1 = [] := by
      rw [bucketTimes, h1]
      have hfl0 : ⌊(0 : ℚ) / 1⌋ = 0 := by norm_num
      simp [cycleIndexAt, inpC2, hfl0]
    simp [cycleResultOf, h2]

/-- C1 (amended): what `run` commits is not the full-precision output: each
summary field is the full-precision value rounded through `toFixed` (AUCs
and min concentrations 2 decimals, ratios 3, percentage 1, decay constants
4), and each committed time-series sample is rounded (time 2 decimals,
concentrations and MIC 3); only the per-cycle `CycleResult` records are
committed at full precision. -/
theorem C1_rounding_amended (inp : SimInput) :
    ((simOutput inp).results.drugAUC =
        toFixedVal 2 (rawResults inp).drugAUC ∧
      (simOutput inp).results.inhibitorAUC =
        toFixedVal 2 (rawResults inp).inhibitorAUC ∧
      (simOutput inp).results.exposureRatio =
        toFixedVal 3 (rawResults inp).exposureRatio ∧
      (simOutput inp).results.inverseExposureRatio =
        toFixedVal 3 (rawResults inp).inverseExposureRatio ∧
      (simOutput inp).results.percentTOverMIC =
        toFixedVal 1 (rawResults inp).percentTOverMIC ∧
      (simOutput inp).results.drugMinConc =
        toFixedVal 2 (rawResults inp).drugMinConc ∧
      (simOutput inp).results.inhibitorMinConc =
        toFixedVal 2 (rawResults inp).inhibitorMinConc ∧
      (simOutput inp).results.kDrug = toFixedVal 4 (rawResults inp).kDrug ∧
      (simOutput inp).results.kInhibitor =
        toFixedVal 4 (rawResults inp).kInhibitor) ∧
    (simOutput inp).chartData = (timePoints inp).map (fun t : ℚ =>
      { time := toFixedVal 2 (t : ℝ)
        drug := toFixedVal 3 (regimenConcAt inp.drugParams t)
        inhibitor := toFixedVal 3 (regimenConcAt inp.inhibitorParams t)
        mic := toFixedVal 3 (micAt inp t) }) ∧
    (simOutput inp).cycleResults =
      (List.range inp.simParams.numCycles).map (cycleResultOf inp) :=
  ⟨⟨rfl, rfl, rfl, rfl, rfl, rfl, rfl, rfl, rfl⟩, rfl, rfl⟩

/-- A validated input with a constant drug concentration of 0.001 μg/mL:
over one 1 h cycle with the infusion spanning the whole interval the drug
AUC is exactly 0.001 μg·h/mL, which `toFixed(2)` commits as 0.00. -/
def inpC1 : SimInput :=
  { drugParams := ⟨1, 1, 6, 1/1000⟩
    inhibitorParams := ⟨24, 1, 8, 50⟩
    pdParams := ⟨2, 3, 25, 1⟩
    simParams := ⟨1, 1⟩ }

/-- The drug concentration of `inpC1` at the sample `t = 0`. -/
theorem inpC1_conc_zero : regimenConcAt inpC1.drugParams 0 = 1/1000 := by
  have hfl : ⌊(0 : ℚ) / 1⌋ = 0 := by norm_num
  simp only [regimenConcAt, inpC1, calculateMinConcentration,
    calculateDecayConstant, concentrationDuringInfusion, jsMod, cycleIndexAt,
    hfl]
  norm_num

/-- The drug concentration of `inpC1` at the sample `t = 1`. -/
theorem inpC1_conc_one : regimenConcAt inpC1.drugParams 1 = 1/1000 := by
  have hfl : ⌊(1 : ℚ) / 1⌋ = 1 := by norm_num [Int.floor_eq_iff]
  simp only [regimenConcAt, inpC1, calculateMinConcentration,
    calculateDecayConstant, concentrationDuringInfusion, jsMod, cycleIndexAt,
    hfl]
  norm_num

/-- The full-precision drug AUC of `inpC1`. -/
theorem inpC1_rawDrugAUC : rawDrugAUC inpC1 = 1/1000 := by
  have htot : totalTime inpC1 = 1 := by norm_num [totalTime, inpC1]
  have hfl : ⌊(1 : ℚ) / 1⌋ = 1 := by norm_num [Int.floor_eq_iff]
  have h1 : timePoints inpC1 = [0, 1] := by
    rw [timePoints, htot, simTimePoints_eq _ _ (by norm_num [inpC1])]
    have hfl2 : ⌊(1 : ℚ) / inpC1.simParams.timeStep⌋ = 1 := by
      norm_num [inpC1, Int.floor_eq_iff]
    rw [hfl2, show Int.toNat (1 + 1) = 2 from rfl]
    norm_num [inpC1, List.range_succ]
  rw [rawDrugAUC, h1]
  simp only [List.map_cons, List.map_nil, inpC1_conc_zero, inpC1_conc_one]
  norm_num [calculateAUC]

/-- Counterexample to C1 as stated: `inpC1` passes validation, yet the
summary value `run` commits for the drug AUC is not the full-precision
result — the engine itself rounds (0.001 becomes 0.00). -/
theorem C1_counterexample :
    validateDrugParams inpC1.drugParams = [] ∧
    validateInhibitorParams inpC1.inhibitorParams = [] ∧
    0 < inpC1.simParams.timeStep ∧
    (simOutput inpC1).results.drugAUC ≠ (rawResults inpC1).drugAUC := by
  refine ⟨?_, ?_, by norm_num [inpC1], ?_⟩
  · rw [validateDrugParams_eq_nil]
    norm_num [inpC1]
  · rw [validateInhibitorParams_eq, validateDrugParams_eq_nil]
    norm_num [inpC1]
  · have hcommit : (simOutput inpC1).results.drugAUC =
        toFixedVal 2 (rawDrugAUC inpC1) := rfl
    have hraw : (rawResults inpC1).drugAUC = rawDrugAUC inpC1 := rfl
    rw [hcommit, hraw, inpC1_rawDrugAUC]
    have hval : toFixedVal 2 ((1 : ℝ)/1000) = 0 := by
      rw [toFixedVal, show (1 : ℝ)/1000 * 10 ^ 2 = 1/10 by norm_num, round_eq]
      norm_num [Int.floor_eq_iff]
    rw [hval]
    norm_num
